import Mathlib

/-!
Verification of the debugui frame-build engine (a Go immediate-mode UI
library) against its natural-language specification.

The definitions below are shallow embeddings of the corresponding Go
functions.  Machine integers are modelled as `Int` (no arithmetic here can
overflow 64-bit for the UI-scale inputs considered); Go's integer division
`/`, which truncates toward zero, is modelled as `Int.tdiv`; Go's `float64`
intermediates in the layout and slider arithmetic are modelled as exact
rational arithmetic (`ℚ`) — for the integer-valued operands arising in the
code the products are exactly representable and the final conversion
`int(...)` truncates toward zero, so the rational model with `Int.tdiv` /
`Rat` division agrees with the compiled code on the whole input range the
claims quantify over.
-/

namespace DebugUI

/-- Modelled from the spec: the `clamp` helper is used throughout the source
(`clamp(v, low, high)`) but its definition is not among the provided files;
the spec says values are "clamped to `[lo, hi]`", which is the standard
`min(hi, max(lo, x))` combination. -/
def clamp {α : Type} [LinearOrder α] (x lo hi : α) : α := min hi (max lo x)

/-! ## Layout sizing (`layout.go`, `sizeInPixels` / `widthInPixels`) -/

/-- The loop body of `sizeInPixels` (layout.go lines 33–44): walking the
size-spec list once, subtracting every positive entry and the default value
for every zero entry from `remain`, and accumulating the absolute values of
the negative entries into `denom`. -/
def sizeLoop (values : List Int) (defaultValue : Int) (remain denom : Int) :
    Int × Int :=
  match values with
  | [] => (remain, denom)
  | v :: rest =>
      sizeLoop rest defaultValue
        (remain - (if 0 < v then v else 0) - (if v = 0 then defaultValue else 0))
        (denom + (if v < 0 then -v else 0))

/-- `(*layout).sizeInPixels` (layout.go lines 23–46).  A positive entry is a
fixed pixel size, a zero entry resolves to the style default, and a negative
entry is a proportional weight over the space remaining after spacing and
the fixed/default entries.  The Go code computes
`int(float64(remain) * -float64(v) / float64(denom))`: products of the
integer operands are exact in `float64` and the conversion truncates toward
zero, which `Int.tdiv` reproduces. -/
def sizeInPixels (values : List Int) (index : Nat) (defaultValue : Int)
    (bodyWidth spacing : Int) : Int :=
  let v := values.getD index 0
  if 0 < v then v
  else if v = 0 then defaultValue
  else
    let p := sizeLoop values defaultValue
      (bodyWidth - ((values.length : Int) - 1) * spacing) 0
    (p.1 * (-v)).tdiv p.2

/-- `(*layout).widthInPixels` (layout.go lines 19–21): the width entry for
the next widget is selected by `itemIndex % len(widths)` and the default is
`style.size.X + style.padding*2` (68 + 2·5 = 78 for the default style). -/
def widthInPixels (widths : List Int) (itemIndex : Nat)
    (bodyWidth spacing : Int) : Int :=
  sizeInPixels widths (itemIndex % widths.length) 78 bodyWidth spacing

theorem sizeLoop_denom_mono (values : List Int) (defaultValue remain denom : Int) :
    denom ≤ (sizeLoop values defaultValue remain denom).2 := by
  induction values generalizing remain denom with
  | nil => simp [sizeLoop]
  | cons v rest ih =>
      refine le_trans ?_ (ih _ _)
      have : (0 : Int) ≤ if v < 0 then -v else 0 := by
        split <;> omega
      omega

theorem sizeLoop_denom_mem (values : List Int) (defaultValue remain denom v : Int)
    (hv : v ∈ values) (hneg : v < 0) :
    denom + (-v) ≤ (sizeLoop values defaultValue remain denom).2 := by
  induction values generalizing remain denom with
  | nil => simp at hv
  | cons w rest ih =>
      rcases List.mem_cons.mp hv with h | h
      · subst h
        have h1 : (denom + (if v < 0 then -v else 0)) = denom + (-v) := by
          simp [hneg]
        calc denom + (-v)
            ≤ (sizeLoop rest defaultValue
                (remain - (if 0 < v then v else 0) -
                  (if v = 0 then defaultValue else 0))
                (denom + (if v < 0 then -v else 0))).2 := by
              rw [h1]; exact sizeLoop_denom_mono _ _ _ _
          _ = (sizeLoop (v :: rest) defaultValue remain denom).2 := rfl
      · have step : denom + (-v) ≤
            (denom + (if w < 0 then -w else 0)) + (-v) := by
          have : (0 : Int) ≤ if w < 0 then -w else 0 := by split <;> omega
          omega
        exact le_trans step (ih _ _ h)

/-- C9: whenever the proportional branch of `sizeInPixels` is taken (the
indexed entry is negative), the accumulated `denom` is at least the absolute
value of that entry, hence at least 1, so the division never divides by
zero.  The denominator below is exactly the one `sizeInPixels` divides by. -/
theorem sizeInPixels_denom_pos (values : List Int) (index : Nat)
    (defaultValue bodyWidth spacing : Int)
    (hlen : index < values.length) (hneg : values[index] < 0) :
    -values[index] ≤ (sizeLoop values defaultValue
        (bodyWidth - ((values.length : Int) - 1) * spacing) 0).2 ∧
    1 ≤ (sizeLoop values defaultValue
        (bodyWidth - ((values.length : Int) - 1) * spacing) 0).2 := by
  have hmem : values[index] ∈ values := List.getElem_mem hlen
  have h := sizeLoop_denom_mem values defaultValue
    (bodyWidth - ((values.length : Int) - 1) * spacing) 0 values[index] hmem hneg
  constructor
  · omega
  · omega

/-- Witness for `sizeInPixels_denom_pos` at `values = [-1]`, `index = 0`. -/
theorem sizeInPixels_denom_pos_witness :
    -([(-1 : Int)])[0] ≤ (sizeLoop [-1] 78 (100 - (1 - 1) * 4) 0).2 ∧
    1 ≤ (sizeLoop [(-1 : Int)] 78 (100 - (1 - 1) * 4) 0).2 :=
  sizeInPixels_denom_pos [-1] 0 78 100 4 (by decide) (by decide)

/-- C1 (amended): when the selected entry is negative, the resolved width is
the truncation toward zero of `remaining * weight / totalWeight`
(`Int.tdiv`), not the floor; the two agree whenever `remaining` is
nonnegative, and in particular `widths = [-1, -1]` over a 300px body with
4px spacing resolves each cell to 148px. -/
theorem sizeInPixels_proportional (values : List Int) (index : Nat)
    (defaultValue bodyWidth spacing : Int)
    (hlen : index < values.length) (hneg : values[index] < 0) :
    sizeInPixels values index defaultValue bodyWidth spacing =
      ((sizeLoop values defaultValue
          (bodyWidth - ((values.length : Int) - 1) * spacing) 0).1 *
        (-values[index])).tdiv
        (sizeLoop values defaultValue
          (bodyWidth - ((values.length : Int) - 1) * spacing) 0).2 ∧
    (0 ≤ (sizeLoop values defaultValue
          (bodyWidth - ((values.length : Int) - 1) * spacing) 0).1 →
      sizeInPixels values index defaultValue bodyWidth spacing =
        ((sizeLoop values defaultValue
            (bodyWidth - ((values.length : Int) - 1) * spacing) 0).1 *
          (-values[index])).fdiv
          (sizeLoop values defaultValue
            (bodyWidth - ((values.length : Int) - 1) * spacing) 0).2) := by
  have hget : values.getD index 0 = values[index] :=
    List.getD_eq_getElem values 0 hlen
  have h1 : sizeInPixels values index defaultValue bodyWidth spacing =
      ((sizeLoop values defaultValue
          (bodyWidth - ((values.length : Int) - 1) * spacing) 0).1 *
        (-values[index])).tdiv
        (sizeLoop values defaultValue
          (bodyWidth - ((values.length : Int) - 1) * spacing) 0).2 := by
    unfold sizeInPixels
    rw [hget]
    rw [if_neg (by omega), if_neg (by omega)]
  refine ⟨h1, fun hrem => ?_⟩
  have hdenom := sizeInPixels_denom_pos values index defaultValue bodyWidth
    spacing hlen hneg
  have hnum : 0 ≤ (sizeLoop values defaultValue
      (bodyWidth - ((values.length : Int) - 1) * spacing) 0).1 *
      (-values[index]) := by
    have : (0 : Int) ≤ -values[index] := by omega
    exact mul_nonneg hrem this
  rw [h1, Int.tdiv_eq_ediv hnum (by omega), Int.fdiv_eq_ediv _ (by omega)]

/-- Witness for `sizeInPixels_proportional`: the end-to-end grid scenario
`widths = [-1, -1]`, 300px body, 4px spacing gives 148px for both cells. -/
theorem sizeInPixels_proportional_witness :
    sizeInPixels [-1, -1] 0 78 300 4 = 148 ∧
    sizeInPixels [-1, -1] 1 78 300 4 = 148 :=
  have h := sizeInPixels_proportional [-1, -1] 0 78 300 4 (by decide) (by decide)
  ⟨by rw [h.1]; decide, by decide⟩

/-- C1 counterexample: with `widths = [100, -1, -2]` over a 52px body with
4px spacing, `remaining = -56` and `totalWeight = 3`; the code resolves the
second entry to `-18` (truncation toward zero) while the claimed
`floor(remaining * weight / totalWeight)` is `-19`. -/
theorem sizeInPixels_not_floor :
    sizeInPixels [100, -1, -2] 1 78 52 4 = -18 ∧
    sizeLoop [100, -1, -2] 78 (52 - (3 - 1) * 4) 0 = (-56, 3) ∧
    Int.fdiv (-56 * 1) 3 = -19 ∧ ((-18 : Int) ≠ -19) := by decide

/-! ## Division close: parent/child layout-frame merge (`layout.go`, `Division`) -/

structure Pt where
  x : Int
  y : Int
deriving DecidableEq

/-- The fields of the Go `layout` struct that the `Division` merge touches:
`body.Min` (the frame's origin), the running cursor `position`, the running
maximum extent `max` (kept in absolute coordinates, since `layoutNext`
applies the body offset before folding a rectangle into `max`), and
`nextRowY`. -/
structure LayoutFrame where
  bodyMin : Pt
  position : Pt
  max : Pt
  nextRowY : Int
deriving DecidableEq

/-- The merge at the end of `(*Context).Division` (layout.go lines 73–77):
`a` is the parent frame, `b` the closing child.  `position.X` and `nextRowY`
are child-relative and get translated by `b.body.Min - a.body.Min`; the
`max` extents are absolute, so they are already in the parent's coordinate
space and merge without an offset. -/
def divisionMerge (a b : LayoutFrame) : LayoutFrame :=
  { a with
    position := { a.position with
      x := max a.position.x (b.position.x + b.bodyMin.x - a.bodyMin.x) }
    nextRowY := max a.nextRowY (b.nextRowY + b.bodyMin.y - a.bodyMin.y)
    max := ⟨max a.max.x b.max.x, max a.max.y b.max.y⟩ }

/-- C7: closing a child frame sets the parent's cursor X, next-row Y and max
extent (both axes) to the maximum of the parent's prior value and the
child's value carried into the parent's coordinate space, so none of the
parent's recorded values ever decreases; in particular a child of content
height 500 inside a parent whose prior max height is 100 leaves the parent
at 500. -/
theorem divisionMerge_monotone :
    (∀ a b : LayoutFrame,
      (divisionMerge a b).position.x =
        max a.position.x (b.position.x + b.bodyMin.x - a.bodyMin.x) ∧
      (divisionMerge a b).nextRowY =
        max a.nextRowY (b.nextRowY + b.bodyMin.y - a.bodyMin.y) ∧
      (divisionMerge a b).max.x = max a.max.x b.max.x ∧
      (divisionMerge a b).max.y = max a.max.y b.max.y ∧
      a.position.x ≤ (divisionMerge a b).position.x ∧
      a.nextRowY ≤ (divisionMerge a b).nextRowY ∧
      a.max.x ≤ (divisionMerge a b).max.x ∧
      a.max.y ≤ (divisionMerge a b).max.y) ∧
    (divisionMerge ⟨⟨0, 0⟩, ⟨0, 0⟩, ⟨40, 100⟩, 0⟩
        ⟨⟨0, 0⟩, ⟨0, 0⟩, ⟨40, 500⟩, 0⟩).max.y = 500 := by
  refine ⟨fun a b => ?_, by decide⟩
  refine ⟨rfl, rfl, rfl, rfl, le_max_left _ _, le_max_left _ _,
    le_max_left _ _, le_max_left _ _⟩

/-! ## Scrollbars (`src/unnamed/part_000`, `scrollbarVertical` / `scrollbarHorizontal`) -/

/-- One scrollbar pass on one axis (part_000 lines 433–465 for Y, 468–500
for X, which are the same code with the axes swapped).  `viewport` is the
body extent on the axis (`b.Dy()` resp. `b.Dx()`, which also equals the
track length `base.Dy()` resp. `base.Dx()`), `contentSize` the measured
content size `cs` on the axis, and `dragging` is the condition
`c.focus == id && ebiten.IsMouseButtonPressed(left)`.  When
`maxscroll = contentSize - viewport` is positive and the viewport is
positive the drag delta is scaled by `contentSize / trackLength` (Go
integer division) and the offset clamped to `[0, maxscroll]`; otherwise the
offset is forced to 0. -/
def scrollbarUpdate (offset delta contentSize viewport : Int)
    (dragging : Bool) : Int :=
  let maxscroll := contentSize - viewport
  if 0 < maxscroll ∧ 0 < viewport then
    let o := if dragging then offset + (delta * contentSize).tdiv viewport
      else offset
    clamp o 0 maxscroll
  else 0

/-- C3: after any scrollbar pass — for every drag delta, including ones that
would drive the offset out of range — the stored scroll offset satisfies
`0 ≤ offset ≤ max 0 (contentSize - viewport)`, and whenever the content
fits the viewport the offset is forced to 0. -/
theorem scrollbarUpdate_clamped (offset delta contentSize viewport : Int)
    (dragging : Bool) :
    0 ≤ scrollbarUpdate offset delta contentSize viewport dragging ∧
    scrollbarUpdate offset delta contentSize viewport dragging ≤
      max 0 (contentSize - viewport) ∧
    (contentSize ≤ viewport →
      scrollbarUpdate offset delta contentSize viewport dragging = 0) := by
  simp only [scrollbarUpdate, clamp]
  split
  · rename_i h
    refine ⟨by omega, by omega, fun hle => by omega⟩
  · simp

/-! ## Sliders (`src/unnamed/part_000`, `slider` / `sliderF`) -/

/-- Round half away from zero, the behavior of Go's `math.Round`, on exact
rationals. -/
def roundAway (q : ℚ) : ℚ :=
  if q < 0 then (-(⌊-q + 1 / 2⌋ : ℤ) : ℤ) else ((⌊q + 1 / 2⌋ : ℤ) : ℚ)

/-- The integer slider's per-frame value update
(`(*Context).slider`, part_000 lines 282–296, the non-text-edit path).
`dragging` is the condition `c.focus == id && IsMouseButtonPressed(left)`;
when it holds and the thumb travel `dx - thumbSize` is positive, the value
is re-projected from the cursor (`low + (x-minX)*(high-low)/w`, Go integer
division truncating toward zero), then step-quantized by `v/step*step`
(again truncating) when `step ≠ 0`; the result is clamped to `[low, high]`
and the changed flag compares it with the pre-frame value `last`. -/
def sliderUpdate (last low high step minX dx thumbSize x : Int)
    (dragging : Bool) : Int × Bool :=
  let v1 :=
    if dragging then
      let w := dx - thumbSize
      let va := if 0 < w then low + ((x - minX) * (high - low)).tdiv w
        else last
      if step ≠ 0 then va.tdiv step * step else va
    else last
  let nv := clamp v1 low high
  (nv, decide (last ≠ nv))

/-- The floating slider's per-frame value update
(`(*Context).sliderF`, part_000 lines 327–341, the non-text-edit path),
with `float64` arithmetic modelled as exact rationals; quantization is
`math.Round(v/step)*step`. -/
def sliderFUpdate (last low high step : ℚ) (minX dx thumbSize x : Int)
    (dragging : Bool) : ℚ × Bool :=
  let v1 :=
    if dragging then
      let w : ℚ := ((dx - thumbSize : Int) : ℚ)
      let va := if 0 < w then
          low + ((x - minX : Int) : ℚ) * (high - low) / w
        else last
      if step ≠ 0 then roundAway (va / step) * step else va
    else last
  let nv := clamp v1 low high
  (nv, decide (last ≠ nv))

/-- C2 (amended): on a frame where the slider holds focus and the primary
button is pressed, with a positive thumb-travel range
`trackWidth = dx - thumbSize` (not the full rectangle width `dx`), the
stored value is `clamp(quantize(low + (x - minX)*(high - low) / trackWidth,
step), low, high)` — where the projection division is Go integer division
(truncating) for the integer slider and exact for the floating one, and
`quantize` is `v/step*step` truncating resp. `round(v/step)*step` (half
away from zero), skipped when `step = 0`. -/
theorem slider_drag_value (last low high step minX dx thumbSize x : Int)
    (lastF lowF highF stepF : ℚ)
    (hw : 0 < dx - thumbSize) :
    (sliderUpdate last low high step minX dx thumbSize x true).1 =
      clamp (if step ≠ 0 then
          (low + ((x - minX) * (high - low)).tdiv (dx - thumbSize)).tdiv step
            * step
        else low + ((x - minX) * (high - low)).tdiv (dx - thumbSize))
        low high ∧
    (sliderFUpdate lastF lowF highF stepF minX dx thumbSize x true).1 =
      clamp (if stepF ≠ 0 then
          roundAway ((lowF + ((x - minX : Int) : ℚ) * (highF - lowF) /
            ((dx - thumbSize : Int) : ℚ)) / stepF) * stepF
        else lowF + ((x - minX : Int) : ℚ) * (highF - lowF) /
          ((dx - thumbSize : Int) : ℚ)) lowF highF := by
  have hwq : (0 : ℚ) < ((dx - thumbSize : Int) : ℚ) := by exact_mod_cast hw
  have hw2 : thumbSize < dx := by omega
  constructor
  · simp [sliderUpdate, hw]
  · simp [sliderFUpdate, hwq, hw2]

/-- Witness for `slider_drag_value`: integer slider over `[0, 100]` with
step 7 at cursor 50 on a 108px rectangle (travel 100) stores 49; floating
slider with step 0 at the same cursor stores 50. -/
theorem slider_drag_value_witness :
    (sliderUpdate 0 0 100 7 0 108 8 50 true).1 = 49 ∧
    (sliderFUpdate 0 0 100 0 0 108 8 50 true).1 = 50 := by
  have h := slider_drag_value 0 0 100 7 0 108 8 50 0 0 100 0 (by decide)
  refine ⟨by rw [h.1]; decide, ?_⟩
  rw [h.2]
  norm_num [clamp, min_def, max_def]

/-- C2 counterexample: integer slider over `[0, 100]`, no step, rectangle
width 108 (default thumb size 8), cursor at 50: the code stores 50
(projection divided by the thumb travel `108 - 8 = 100`) while the claimed
formula divided by the full rectangle width 108 gives 46 (integer reading)
resp. `1250/27` (exact reading); the floating slider likewise stores 50. -/
theorem slider_track_width_false :
    (sliderUpdate 0 0 100 0 0 108 8 50 true).1 = 50 ∧
    clamp ((0 : Int) + (((50 : Int) - 0) * (100 - 0)).tdiv 108) 0 100 = 46 ∧
    ((50 : Int) ≠ 46) ∧
    (sliderFUpdate 0 0 100 0 0 108 8 50 true).1 = 50 ∧
    clamp ((0 : ℚ) + ((50 : ℚ) - 0) * ((100 : ℚ) - 0) / 108) 0 100 =
      1250 / 27 ∧
    ((50 : ℚ) ≠ 1250 / 27) := by
  refine ⟨by decide, by decide, by decide, ?_, ?_, by norm_num⟩
  · simp only [sliderFUpdate]
    norm_num [clamp, min_def, max_def]
  · norm_num [clamp, min_def, max_def]

/-- C8: for both the integer and the floating slider, the returned
changed-flag is true exactly when the post-quantization post-clamp value
stored at the end of the frame differs from the pre-frame value `last`; in
particular it is false whenever they agree. -/
theorem slider_changed_iff (last low high step minX dx thumbSize x : Int)
    (lastF lowF highF stepF : ℚ) (dragging : Bool) :
    ((sliderUpdate last low high step minX dx thumbSize x dragging).2 = true ↔
      (sliderUpdate last low high step minX dx thumbSize x dragging).1 ≠ last) ∧
    ((sliderFUpdate lastF lowF highF stepF minX dx thumbSize x dragging).2 = true ↔
      (sliderFUpdate lastF lowF highF stepF minX dx thumbSize x dragging).1 ≠ lastF) := by
  constructor
  · simp only [sliderUpdate, Prod.snd, Prod.fst, decide_eq_true_eq]
    exact ne_comm
  · simp only [sliderFUpdate, Prod.snd, Prod.fst, decide_eq_true_eq]
    exact ne_comm

/-! ## Control state machine (`src/unnamed/part_000`, `updateControl`) -/

/-- The empty control identifier (`emptyControlID controlID = ""` in
part_000; identifiers are strings in the string-keyed model). -/
def emptyControlID : String := ""

/-- The per-frame input facts `updateControl` consults for one control:
whether the cursor is inside the control's bounds, inside the top-of-stack
clip rectangle and inside the hover-root container (the three conjuncts of
`mouseOver`), whether the primary button is currently pressed
(`IsMouseButtonPressed`), and whether it was just pressed this frame
(`IsMouseButtonJustPressed`). -/
structure CtlInput where
  inBounds : Bool
  inClip : Bool
  inHoverRoot : Bool
  down : Bool
  just : Bool
deriving DecidableEq

/-- The Context fields `updateControl` reads and writes: the hover and
focus singletons and the keep-focus flag. -/
structure UIState where
  hover : String
  focus : String
  keepFocus : Bool
deriving DecidableEq

/-- `(*Context).mouseOver` (part_000 lines 56–59): cursor inside the
bounds, inside the current clip rectangle, and inside the hover root. -/
def mouseOver (i : CtlInput) : Bool :=
  i.inBounds && i.inClip && i.inHoverRoot

/-- Modelled from the spec: `setFocus` (called by `updateControl` but not
among the provided files) assigns the focus singleton; the implementation
also marks the focus as retained for the current frame. -/
def setFocus (s : UIState) (id : String) : UIState :=
  { s with focus := id, keepFocus := true }

/-- `(*Context).updateControl` (part_000 lines 72–109), with the geometric
tests abstracted into the boolean `CtlInput` facts and the two option bits
it reads (`optionNoInteract`, `optionHoldFocus`) passed explicitly.
Returns the updated state and the `wasFocused` result. -/
def updateControl (s : UIState) (id : String) (i : CtlInput)
    (noInteract holdFocus : Bool) : UIState × Bool :=
  if id = emptyControlID then (s, false)
  else
    let mo := mouseOver i
    let s1 := if s.focus = id then { s with keepFocus := true } else s
    if noInteract then (s1, false)
    else
      let s2 := if mo && !i.down then { s1 with hover := id } else s1
      let fr :=
        if s2.focus = id then
          let fr1 := if i.just && !mo then (setFocus s2 emptyControlID, true)
            else (s2, false)
          if !i.down && !holdFocus then (setFocus fr1.1 emptyControlID, true)
          else fr1
        else (s2, false)
      let s4 :=
        if fr.1.hover = id then
          if i.just then setFocus fr.1 id
          else if !mo then { fr.1 with hover := emptyControlID }
          else fr.1
        else fr.1
      (s4, fr.2)

/-- One frame of `(*Context).button` (part_000 lines 211–230): the layout
rectangle is resolved, `updateControl` runs with the button's options
(neither `optionNoInteract` nor `optionHoldFocus`), and the result is true
exactly when the primary button was just pressed this frame and the
button's identifier holds focus after the update. -/
def buttonFrame (s : UIState) (id : String) (i : CtlInput) : UIState × Bool :=
  let s2 := (updateControl s id i false false).1
  (s2, i.just && decide (s2.focus = id))

/-- Folding `buttonFrame` over a list of per-frame inputs, collecting each
frame's returned click result. -/
def buttonRun (s : UIState) (id : String) (frames : List CtlInput) :
    List Bool :=
  (frames.foldl
    (fun acc i =>
      let r := buttonFrame acc.1 id i
      (r.1, acc.2 ++ [r.2]))
    (s, [])).2

/-- C10: `updateControl` called with the empty control identifier returns
false and leaves the state unchanged — in particular the hover and focus
singletons keep their prior values. -/
theorem updateControl_empty_id (s : UIState) (i : CtlInput)
    (noInteract holdFocus : Bool) :
    updateControl s emptyControlID i noInteract holdFocus = (s, false) := by
  simp [updateControl]

/-- C5: `updateControl` assigns the hover singleton to a control's
identifier only when the cursor is inside the control's bounds, inside the
current clip rectangle and inside the hover-root container, and the primary
button is not currently pressed. -/
theorem updateControl_hover_acquire (s : UIState) (id : String)
    (i : CtlInput) (noInteract holdFocus : Bool)
    (hnew : (updateControl s id i noInteract holdFocus).1.hover = id)
    (hold : s.hover ≠ id) :
    i.inBounds = true ∧ i.inClip = true ∧ i.inHoverRoot = true ∧
      i.down = false := by
  revert hnew
  unfold updateControl
  split
  · intro hnew; exact absurd hnew hold
  · rename_i hid
    by_cases hmo : mouseOver i = true
    · cases hdn : i.down
      · intro _
        have h3 := hmo
        simp only [mouseOver, Bool.and_eq_true] at h3
        exact ⟨h3.1.1, h3.1.2, h3.2, rfl⟩
      · intro hnew
        exfalso
        simp only [hmo, hdn, Bool.not_true, Bool.and_false,
          Bool.false_eq_true, if_false] at hnew
        split_ifs at hnew <;> simp_all [setFocus]
    · intro hnew
      exfalso
      have hmo2 : mouseOver i = false := by
        revert hmo; cases mouseOver i <;> simp
      simp only [hmo2, Bool.false_and, Bool.false_eq_true, if_false] at hnew
      split_ifs at hnew <;> simp_all [setFocus]

/-- Witness for `updateControl_hover_acquire`: an idle state acquires hover
for identifier "b" when the cursor is inside bounds, clip and hover root
and the button is up. -/
theorem updateControl_hover_acquire_witness :
    (true = true ∧ true = true ∧ true = true ∧ false = false) :=
  updateControl_hover_acquire ⟨"", "", false⟩ "b"
    ⟨true, true, true, false, false⟩ false false (by decide) (by decide)

/-- C4: a button build call returns true exactly on frames where the
primary button was just pressed and the button's identifier holds focus
after `updateControl`; over a press-then-release sequence performed over
the button (hover frame, press-edge frame, held frame, release frame) it
yields exactly one true result, on the press-edge frame. -/
theorem button_press_edge :
    (∀ (s : UIState) (id : String) (i : CtlInput),
      (buttonFrame s id i).2 = true ↔
        i.just = true ∧ (buttonFrame s id i).1.focus = id) ∧
    buttonRun ⟨emptyControlID, emptyControlID, false⟩ "b"
      [⟨true, true, true, false, false⟩, ⟨true, true, true, true, true⟩,
       ⟨true, true, true, true, false⟩, ⟨true, true, true, false, false⟩] =
      [false, true, false, false] := by
  refine ⟨fun s id i => ?_, by decide⟩
  simp [buttonFrame]

/-! ## Header / tree-node expansion (`src/unnamed/part_000` `header`,
`src/control.go` lines 223–274) -/

/-- The expanded-set toggle a header performs on the press edge
(control.go lines 238–245): remove the identifier if it is in the set,
insert it otherwise. -/
def toggleExpanded (toggled : Finset String) (id : String) : Finset String :=
  if id ∈ toggled then toggled.erase id else insert id toggled

/-- One frame of the header/tree-node toggle logic (part_000 lines
371–373): the owning container's expanded set is toggled exactly when the
primary button was just pressed this frame and the widget's identifier
holds focus; on every other frame the set is untouched. -/
def headerFrame (toggled : Finset String) (id : String)
    (just focused : Bool) : Finset String :=
  if just && focused then toggleExpanded toggled id else toggled

/-- C6: a primary-button press edge while the header's identifier holds
focus toggles that identifier's membership in the per-container expanded
set, and the set — hence the identifier's membership, keyed by the
identifier — is unchanged by any frame without such a press edge. -/
theorem headerFrame_toggle (toggled : Finset String) (id : String)
    (just focused : Bool) :
    ((just && focused) = true →
      (id ∈ headerFrame toggled id just focused ↔ id ∉ toggled)) ∧
    ((just && focused) = false →
      headerFrame toggled id just focused = toggled) := by
  constructor
  · intro h
    by_cases hm : id ∈ toggled <;>
      simp [headerFrame, h, toggleExpanded, hm]
  · intro h
    simp [headerFrame, h]

end DebugUI
